import Mathlib

/-!
A shallow embedding of the photon-mapping integrator core of
src/core/integrators/photon_map/PhotonTracer.cpp.

The two functions of that file, PhotonTracer::tracePhoton (light-emission
tracing with photon deposits) and PhotonTracer::traceSample (camera gather
estimation), are embedded as fuel-bounded state machines.  External
collaborators that the source consumes through interfaces (the scene
intersection oracle, BSDF and medium models, the sample stream, and the
spatial indices) are modelled as oracle fields of an environment record;
each per-iteration oracle is indexed by the bounce counter at its call
site.  Float arithmetic is modelled exactly over the rationals.
-/

namespace Tungsten

/-- Three-component vector (Vec3f in the source). Components are modelled
over the rationals. -/
structure Vec3 where
  x : ℚ
  y : ℚ
  z : ℚ
deriving DecidableEq

def Vec3.mul (a b : Vec3) : Vec3 := ⟨a.x * b.x, a.y * b.y, a.z * b.z⟩

def Vec3.add (a b : Vec3) : Vec3 := ⟨a.x + b.x, a.y + b.y, a.z + b.z⟩

def Vec3.sub (a b : Vec3) : Vec3 := ⟨a.x - b.x, a.y - b.y, a.z - b.z⟩

def Vec3.negV (a : Vec3) : Vec3 := ⟨-a.x, -a.y, -a.z⟩

def Vec3.smulR (a : Vec3) (q : ℚ) : Vec3 := ⟨a.x * q, a.y * q, a.z * q⟩

def Vec3.smulL (q : ℚ) (a : Vec3) : Vec3 := ⟨q * a.x, q * a.y, q * a.z⟩

def Vec3.sdiv (a : Vec3) (q : ℚ) : Vec3 := ⟨a.x / q, a.y / q, a.z / q⟩

instance : Zero Vec3 := ⟨⟨0, 0, 0⟩⟩

instance : One Vec3 := ⟨⟨1, 1, 1⟩⟩

instance : Add Vec3 := ⟨Vec3.add⟩

instance : Sub Vec3 := ⟨Vec3.sub⟩

instance : Neg Vec3 := ⟨Vec3.negV⟩

instance : Mul Vec3 := ⟨Vec3.mul⟩

instance : HMul Vec3 ℚ Vec3 := ⟨Vec3.smulR⟩

instance : HMul ℚ Vec3 Vec3 := ⟨Vec3.smulL⟩

instance : HDiv Vec3 ℚ Vec3 := ⟨Vec3.sdiv⟩

/-- Dot product (Vec3f::dot). -/
def Vec3.dot (a b : Vec3) : ℚ := a.x * b.x + a.y * b.y + a.z * b.z

/-- Cross product (Vec3f::cross). -/
def Vec3.cross (a b : Vec3) : Vec3 :=
  ⟨a.y * b.z - a.z * b.y, a.z * b.x - a.x * b.z, a.x * b.y - a.y * b.x⟩

/-- Component sum (Vec3f::sum), used by the isnan guards. -/
def Vec3.sum (a : Vec3) : ℚ := a.x + a.y + a.z

/-- Component average (Vec3f::avg), used for the transparency scalar. -/
def Vec3.avg (a : Vec3) : ℚ := (a.x + a.y + a.z) / 3

/-- Largest component (Vec3f::max), used by the zero-throughput guard. -/
def Vec3.maxComp (a : Vec3) : ℚ := max a.x (max a.y a.z)

/-- Componentwise absolute value (std::abs on a Vec3f). -/
def Vec3.absV (a : Vec3) : Vec3 := ⟨|a.x|, |a.y|, |a.z|⟩

/-- Squared length, the argument of the square root inside Vec3f::length. -/
def Vec3.lengthSq (a : Vec3) : ℚ := a.dot a

/-- Component access by axis index (Vec3f::operator[]). -/
def Vec3.nth (a : Vec3) : ℕ → ℚ
  | 0 => a.x
  | 1 => a.y
  | _ => a.z

/-- Modelled from the spec: the dominant axis of a vector (Vec3f::maxDim,
whose implementation is not under src/): the index of the largest
component, preferring the earlier axis on ties. -/
def Vec3.maxDim (a : Vec3) : ℕ :=
  if a.y ≤ a.x ∧ a.z ≤ a.x then 0 else if a.z ≤ a.y then 1 else 2

/-- Square of a scalar (sqr in the source). -/
def sqr (q : ℚ) : ℚ := q * q

/-- Modelled from the spec: a ray carries an origin, direction, a valid
parametric interval [near, far] and a primary-ray flag (Ray.hpp is not
under src/). A far value of none stands for the float infinity default. -/
structure Ray where
  pos : Vec3
  dir : Vec3
  nearT : ℚ
  farT : Option ℚ
  primaryRay : Bool
deriving DecidableEq

/-- The two-argument Ray constructor used by the source: full interval,
primary by default. -/
def mkRay (p d : Vec3) : Ray :=
  { pos := p, dir := d, nearT := 0, farT := none, primaryRay := true }

/-- Clamp the far end of the interval (Ray::setFarT). -/
def Ray.setFarT (r : Ray) (t : ℚ) : Ray := { r with farT := some t }

/-- Compare a parameter against the far end (t less-or-equal farT); the
none case models the float infinity default. -/
def Ray.farLe (r : Ray) (t : ℚ) : Bool :=
  match r.farT with
  | none => true
  | some f => decide (t ≤ f)

/-- Modelled from the spec: the hit point of a ray whose far end was
clamped to the hit distance by the intersection oracle (Ray::hitpoint,
not under src/). -/
def Ray.hitpoint (r : Ray) : Vec3 := r.pos + r.dir * r.farT.getD 0

/-- Modelled from the spec: a scattering event repositions the ray and
reclamps its interval to [epsilon, infinity) (Ray::scatter, not under
src/). -/
def Ray.scatter (r : Ray) (newPos newDir : Vec3) (newNearT : ℚ) : Ray :=
  { pos := newPos, dir := newDir, nearT := newNearT, farT := none,
    primaryRay := r.primaryRay }

def Ray.setPrimaryRay (r : Ray) (b : Bool) : Ray := { r with primaryRay := b }

/-- Surface photon record: position, incoming direction, power, bounce. -/
structure Photon where
  pos : Vec3
  dir : Vec3
  power : Vec3
  bounce : ℤ
deriving DecidableEq

/-- Volume photon record. The radiusSq field is filled in later by the
integrator (outside this file); deposits leave it at 0. -/
structure VolumePhoton where
  pos : Vec3
  dir : Vec3
  power : Vec3
  bounce : ℤ
  radiusSq : ℚ
deriving DecidableEq

/-- Path photon record. The dir and length fields of a beam segment are
filled in later by the integrator (outside this file); deposits leave
them at 0. The encoded (bounce, specular-flag) pair of the source is
modelled as two fields written together by setPathInfo. -/
structure PathPhoton where
  pos : Vec3
  power : Vec3
  dir : Vec3
  length : ℚ
  bounce : ℤ
  specFlag : Bool
deriving DecidableEq

/-- Modelled from the spec: setPathInfo stores the encoded
(bounce index, specular-flag) pair of a path photon. -/
def PathPhoton.setPathInfo (p : PathPhoton) (b : ℤ) (s : Bool) : PathPhoton :=
  { p with bounce := b, specFlag := s }

/-- Modelled from the spec: a bounded photon output range (PhotonRange.hpp
is not under src/): a pre-sized output sequence with a capacity fixed at
construction, a current count, an append operation and a full predicate. -/
structure PhotonRange (α : Type) where
  buf : List α
  capacity : ℕ
deriving DecidableEq

def PhotonRange.full {α : Type} (r : PhotonRange α) : Bool :=
  decide (r.capacity ≤ r.buf.length)

def PhotonRange.addPhoton {α : Type} (r : PhotonRange α) (p : α) : PhotonRange α :=
  { r with buf := r.buf ++ [p] }

/-- The settings fields consumed by PhotonTracer. -/
structure PhotonMapSettings where
  maxBounces : ℤ
  minBounces : ℤ
  gatherCount : ℕ
deriving DecidableEq

/-- Result of Medium::sampleDistance as consumed by the source. -/
structure MediumSample where
  weight : Vec3
  exited : Bool
  p : Vec3
deriving DecidableEq

/-- Result of PhaseFunction::sample as consumed by the source. -/
structure PhaseSample where
  w : Vec3
  weight : Vec3
deriving DecidableEq

/-- The IntersectionInfo fields read by the source: hit point, geometric
and shading normals, continuation epsilon, and whether the bound BSDF's
lobes are purely specular. -/
structure IInfo where
  p : Vec3
  Ng : Vec3
  Ns : Vec3
  epsilon : ℚ
  bsdfPureSpecular : Bool
deriving DecidableEq

/-- Result of the shared TraceBase::handleSurface step (its implementation
is not under src/): the updated ray, throughput, active medium and
specular flag. A failure is modelled as none at the call site. -/
structure HandleOut where
  ray : Ray
  throughput : Vec3
  medium : Option ℕ
  wasSpecular : Bool
deriving DecidableEq

/-- Oracle environment for tracePhoton. Each bounce-indexed field models
one external call site; media are identified by an opaque natural. -/
structure PTEnv where
  lightPdf : ℚ
  lightMedium : Option ℕ
  samplePosition : Option (Vec3 × Vec3)
  sampleDirection : Option (Vec3 × Vec3)
  sampleDistance : ℤ → ℕ → Ray → ℕ → Option (MediumSample × ℕ)
  phaseSample : ℤ → Vec3 → Option PhaseSample
  handleSurface : ℤ → IInfo → Ray → Vec3 → Option ℕ → Bool → Option HandleOut
  intersect : ℤ → Ray → Option (IInfo × ℚ)
  isnanQ : ℚ → Bool
  info0 : IInfo

/-- The three caller-provided bounded output ranges of tracePhoton. -/
structure PTRanges where
  surfaceRange : PhotonRange Photon
  volumeRange : PhotonRange VolumePhoton
  pathRange : PhotonRange PathPhoton
deriving DecidableEq

/-- The mutable locals of the tracePhoton loop. -/
structure PTState where
  bounce : ℤ
  ray : Ray
  throughput : Vec3
  medium : Option ℕ
  mstate : ℕ
  hitSurface : Bool
  wasSpecular : Bool
  didHit : Bool
  info : IInfo
deriving DecidableEq

/-- Lines 60-73 of the source: deposit a volume photon and a path photon
at a medium scattering point, each only when its range is not full. -/
def mediumScatterDeposit (bounce : ℤ) (rayDir pnt throughput : Vec3)
    (rs : PTRanges) : PTRanges :=
  let vp : VolumePhoton :=
    { pos := pnt, dir := rayDir, power := throughput, bounce := bounce,
      radiusSq := 0 }
  let pp : PathPhoton :=
    PathPhoton.setPathInfo
      { pos := pnt, power := throughput, dir := 0, length := 0, bounce := 0,
        specFlag := false } bounce false
  let rs1 :=
    if rs.volumeRange.full then rs
    else { rs with volumeRange := rs.volumeRange.addPhoton vp }
  if rs1.pathRange.full then rs1
  else { rs1 with pathRange := rs1.pathRange.addPhoton pp }

/-- Lines 84-98 of the source: at a surface hit, deposit a surface photon
when the BSDF is not purely specular and the range is not full, with the
shading-normal asymmetry correction folded into the stored power, and a
path photon when that range is not full. -/
def surfaceHitDeposit (bounce : ℤ) (info : IInfo) (ray : Ray)
    (throughput : Vec3) (rs : PTRanges) : PTRanges :=
  let sp : Photon :=
    { pos := info.p, dir := ray.dir,
      power := throughput * abs (info.Ns.dot ray.dir / info.Ng.dot ray.dir),
      bounce := bounce }
  let pp : PathPhoton :=
    PathPhoton.setPathInfo
      { pos := info.p, power := throughput, dir := 0, length := 0, bounce := 0,
        specFlag := false } bounce false
  let rs1 :=
    if !info.bsdfPureSpecular && !rs.surfaceRange.full then
      { rs with surfaceRange := rs.surfaceRange.addPhoton sp }
    else rs
  if rs1.pathRange.full then rs1
  else { rs1 with pathRange := rs1.pathRange.addPhoton pp }

/-- Lines 110-120 of the source: terminal guards on throughput and
numerics, then the conditional re-intersection that prepares the next
iteration. -/
def tracePhotonTail (settings : PhotonMapSettings) (env : PTEnv) (bounce : ℤ)
    (ray : Ray) (throughput : Vec3) (medium : Option ℕ) (mstate : ℕ)
    (hitSurface wasSpecular didHit : Bool) (info : IInfo) (rs : PTRanges) :
    PTState × PTRanges ⊕ PTRanges :=
  if throughput.maxComp = 0 then Sum.inr rs
  else if env.isnanQ (ray.dir.sum + ray.pos.sum) then Sum.inr rs
  else if env.isnanQ throughput.sum then Sum.inr rs
  else
    let next :=
      if bounce < settings.maxBounces then
        match env.intersect bounce ray with
        | some it => (true, ray.setFarT it.2, it.1)
        | none => (false, ray, info)
      else (didHit, ray, info)
    let stNext : PTState :=
      { bounce := bounce, ray := next.2.1, throughput := throughput,
        medium := medium, mstate := mstate, hitSurface := hitSurface,
        wasSpecular := wasSpecular, didHit := next.1, info := next.2.2 }
    Sum.inl (stNext, rs)

/-- Lines 84-120 of the source: the part of the loop body after the medium
block, with the current (possibly medium-updated) ray and throughput. -/
def tracePhotonSurf (settings : PhotonMapSettings) (env : PTEnv) (bounce : ℤ)
    (ray : Ray) (throughput : Vec3) (medium : Option ℕ) (mstate : ℕ)
    (hitSurface wasSpecular didHit : Bool) (info : IInfo) (rs : PTRanges) :
    PTState × PTRanges ⊕ PTRanges :=
  let rs1 := if hitSurface then surfaceHitDeposit bounce info ray throughput rs else rs
  if rs1.volumeRange.full && rs1.surfaceRange.full && rs1.pathRange.full then
    Sum.inr rs1
  else if hitSurface then
    match env.handleSurface bounce info ray throughput medium wasSpecular with
    | none => Sum.inr rs1
    | some h =>
      tracePhotonTail settings env bounce h.ray h.throughput h.medium mstate
        hitSurface h.wasSpecular didHit info rs1
  else
    tracePhotonTail settings env bounce ray throughput medium mstate
      hitSurface wasSpecular didHit info rs1

/-- One iteration of the tracePhoton while loop (lines 50-120): the bounce
increment, the medium block, then the shared surface part. Sum.inr is a
break carrying the ranges at the break point. -/
def tracePhotonStep (settings : PhotonMapSettings) (env : PTEnv)
    (st : PTState) (rs : PTRanges) : PTState × PTRanges ⊕ PTRanges :=
  let bounce := st.bounce + 1
  match st.medium with
  | some m =>
    match env.sampleDistance bounce m st.ray st.mstate with
    | none => Sum.inr rs
    | some ms =>
      let throughput1 := st.throughput * ms.1.weight
      if ms.1.exited then
        tracePhotonSurf settings env bounce st.ray throughput1 st.medium ms.2
          true st.wasSpecular st.didHit st.info rs
      else
        let rs1 := mediumScatterDeposit bounce st.ray.dir ms.1.p throughput1 rs
        match env.phaseSample bounce st.ray.dir with
        | none => Sum.inr rs1
        | some ph =>
          let ray1 := (st.ray.scatter ms.1.p ph.w 0).setPrimaryRay false
          tracePhotonSurf settings env bounce ray1 (throughput1 * ph.weight)
            st.medium ms.2 false st.wasSpecular st.didHit st.info rs1
  | none =>
    tracePhotonSurf settings env bounce st.ray st.throughput none st.mstate
      st.hitSurface st.wasSpecular st.didHit st.info rs

/-- The tracePhoton while loop, fuel-bounded. The loop condition is checked
on entry exactly as in line 50 of the source; a break returns the state
with its already-incremented bounce counter. -/
def tracePhotonLoop (settings : PhotonMapSettings) (env : PTEnv) :
    ℕ → PTState → PTRanges → PTState × PTRanges
  | 0, st, rs => (st, rs)
  | Nat.succ fuel, st, rs =>
    if (st.didHit || st.medium.isSome) &&
        decide (st.bounce < settings.maxBounces - 1) then
      match tracePhotonStep settings env st rs with
      | Sum.inl next => tracePhotonLoop settings env fuel next.1 next.2
      | Sum.inr rs1 => ({ st with bounce := st.bounce + 1 }, rs1)
    else (st, rs)

/-- Line 39-44 of the source: the initial path photon at the emission
point, with bounce 0 and a cleared specular flag, deposited only when the
path range is not full. -/
def emissionDeposit (pnt throughput : Vec3) (rs : PTRanges) : PTRanges :=
  let pp : PathPhoton :=
    PathPhoton.setPathInfo
      { pos := pnt, power := throughput, dir := 0, length := 0, bounce := 0,
        specFlag := false } 0 false
  if rs.pathRange.full then rs
  else { rs with pathRange := rs.pathRange.addPhoton pp }

/-- PhotonTracer::tracePhoton (lines 15-121 of the source): light and
emission sampling, the initial path record, then the bounded photon path
loop. Returns the updated ranges. -/
def tracePhoton (settings : PhotonMapSettings) (env : PTEnv)
    (rs : PTRanges) : PTRanges :=
  match env.samplePosition with
  | none => rs
  | some pw =>
    match env.sampleDirection with
    | none => rs
    | some dw =>
      let ray := mkRay pw.1 dw.1
      let throughput := pw.2 * dw.2 / env.lightPdf
      let rs0 := emissionDeposit pw.1 throughput rs
      let first :=
        match env.intersect 0 ray with
        | some it => (true, ray.setFarT it.2, it.1)
        | none => (false, ray, env.info0)
      let st0 : PTState :=
        { bounce := 0, ray := first.2.1, throughput := throughput,
          medium := env.lightMedium, mstate := 0, hitSurface := true,
          wasSpecular := true, didHit := first.1, info := first.2.2 }
      (tracePhotonLoop settings env (settings.maxBounces - 1).toNat st0 rs0).2

/-- Oracle environment for traceSample. The two optional volumetric
indices of the source (point k-NN tree and beam BVH) are modelled by
presence flags plus query oracles producing the candidate sequences that
the source's callbacks would visit; the beam BVH hands each candidate a
photon index and the packed 4-wide per-axis bounds of its node. -/
structure GEnv where
  camPosition : Option (Vec3 × Vec3)
  camDirection : Option (Vec3 × Vec3)
  camMedium : Option ℕ
  hasMediumTree : Bool
  hasBeamBvh : Bool
  intersect : ℤ → Ray → Option (IInfo × ℚ)
  pointQuery : ℤ → Ray → List (VolumePhoton × ℚ × ℚ)
  beamTrace : ℤ → Ray → List (ℕ × (ℕ → ℕ → ℚ))
  pathPhotons : ℕ → PathPhoton
  phaseEval : ℕ → Vec3 → Vec3 → Vec3 → Vec3
  transmittance : ℕ → ℤ → Ray → Vec3
  sigmaT : ℕ → Vec3 → Vec3
  bsdfForwardEval : ℤ → IInfo → Vec3
  nextBoolean : ℤ → ℚ → Bool
  bsdfSampleSpec : ℤ → IInfo → Option (Vec3 × Vec3)
  selectMedium : ℤ → IInfo → Option ℕ → Bool → Option ℕ
  intersectInfinites : Ray → Option Vec3
  isEmissive : IInfo → Bool
  evalDirect : IInfo → Vec3
  knn : Vec3 → ℕ → ℚ → List (Photon × ℚ)
  frameToLocal : IInfo → Vec3 → Vec3
  bsdfEval : IInfo → Vec3 → Vec3
  isnanQ : ℚ → Bool
  invPi : ℚ
  sqrtQ : ℚ → ℚ
  info0 : IInfo

/-- The mutable locals of the traceSample loop. -/
structure GState where
  bounce : ℤ
  ray : Ray
  throughput : Vec3
  medium : Option ℕ
  didHit : Bool
  info : IInfo
  result : Vec3
deriving DecidableEq

/-- Lines 153-161 of the source: the point-kernel candidate callback. A
candidate is a volume photon with its ray parameter t and its squared
distance to the ray. -/
def pointKernelContrib (env : GEnv) (settings : PhotonMapSettings) (m : ℕ)
    (bounce : ℤ) (ray : Ray) (c : VolumePhoton × ℚ × ℚ) : Vec3 :=
  let p := c.1
  let t := c.2.1
  let distSq := c.2.2
  let fullPathBounce := bounce + p.bounce - 1
  if fullPathBounce < settings.minBounces ∨ settings.maxBounces ≤ fullPathBounce then 0
  else
    let mediumQuery := ray.setFarT t
    (3 * env.invPi * sqr (1 - distSq / p.radiusSq) / p.radiusSq) *
      env.phaseEval m p.pos ray.dir (-p.dir) *
      env.transmittance m bounce mediumQuery * p.power

/-- The unfiltered point-kernel candidate term: lines 157-161 of the
source without the combined-path-length guard of lines 153-155. -/
def pointKernelBody (env : GEnv) (m : ℕ) (bounce : ℤ) (ray : Ray)
    (c : VolumePhoton × ℚ × ℚ) : Vec3 :=
  let p := c.1
  let t := c.2.1
  let distSq := c.2.2
  let mediumQuery := ray.setFarT t
  (3 * env.invPi * sqr (1 - distSq / p.radiusSq) / p.radiusSq) *
    env.phaseEval m p.pos ray.dir (-p.dir) *
    env.transmittance m bounce mediumQuery * p.power

/-- Lines 151-162 of the source: the point-kernel beam query accumulated
over the candidates visited by the volume k-NN tree. -/
def pointKernelEstimate (env : GEnv) (settings : PhotonMapSettings) (m : ℕ)
    (bounce : ℤ) (ray : Ray) : Vec3 :=
  (env.pointQuery bounce ray).foldl
    (fun acc c => acc + pointKernelContrib env settings m bounce ray c) 0

/-- Lines 167-199 of the source: the beam-intersection candidate callback
on an explicit pair of consecutive path photons p0 and p1. -/
def beamSegmentContribP (env : GEnv) (settings : PhotonMapSettings)
    (vgr : ℚ) (m : ℕ) (bounce : ℤ) (ray : Ray)
    (bounds : ℕ → ℕ → ℚ) (p0 p1 : PathPhoton) : Vec3 :=
  let fullPathBounce := bounce + p0.bounce
  if fullPathBounce < settings.minBounces ∨ settings.maxBounces ≤ fullPathBounce then 0
  else
    let u := ray.dir.cross p0.dir
    let invSinTheta := 1 / env.sqrtQ u.lengthSq
    let l := p0.pos - ray.pos
    let d := invSinTheta * u.dot l
    if vgr < abs d then 0
    else
      let n := p0.dir.cross u
      let t := n.dot l / n.dot ray.dir
      let majorAxis := p0.dir.absV.maxDim
      let intervalMin := min (bounds majorAxis 0) (bounds majorAxis 1)
      let intervalMax := max (bounds majorAxis 2) (bounds majorAxis 3)
      let hitPoint := ray.pos + ray.dir * t
      if hitPoint.nth majorAxis < intervalMin ∨ intervalMax < hitPoint.nth majorAxis then 0
      else
        let s := p0.dir.dot (hitPoint - p0.pos)
        if ray.nearT ≤ t ∧ ray.farLe t = true ∧ 0 ≤ s ∧ s ≤ p0.length then
          env.sigmaT m hitPoint * invSinTheta / (2 * vgr) *
            env.phaseEval m hitPoint ray.dir (-p0.dir) *
            env.transmittance m bounce (ray.setFarT t) * p1.power
        else 0

/-- The beam-intersection candidate term without the combined-path-length
guard of lines 169-171: the geometric guards and the weighted
contribution of lines 173-199 only. -/
def beamSegmentBody (env : GEnv) (vgr : ℚ) (m : ℕ) (bounce : ℤ) (ray : Ray)
    (bounds : ℕ → ℕ → ℚ) (p0 p1 : PathPhoton) : Vec3 :=
  let u := ray.dir.cross p0.dir
  let invSinTheta := 1 / env.sqrtQ u.lengthSq
  let l := p0.pos - ray.pos
  let d := invSinTheta * u.dot l
  if vgr < abs d then 0
  else
    let n := p0.dir.cross u
    let t := n.dot l / n.dot ray.dir
    let majorAxis := p0.dir.absV.maxDim
    let intervalMin := min (bounds majorAxis 0) (bounds majorAxis 1)
    let intervalMax := max (bounds majorAxis 2) (bounds majorAxis 3)
    let hitPoint := ray.pos + ray.dir * t
    if hitPoint.nth majorAxis < intervalMin ∨ intervalMax < hitPoint.nth majorAxis then 0
    else
      let s := p0.dir.dot (hitPoint - p0.pos)
      if ray.nearT ≤ t ∧ ray.farLe t = true ∧ 0 ≤ s ∧ s ≤ p0.length then
        env.sigmaT m hitPoint * invSinTheta / (2 * vgr) *
          env.phaseEval m hitPoint ray.dir (-p0.dir) *
          env.transmittance m bounce (ray.setFarT t) * p1.power
      else 0

/-- Lines 164-200 of the source: the beam-BVH traversal accumulated over
the visited candidates; each candidate fetches the consecutive path
photon pair at its photon index. -/
def beamEstimate (env : GEnv) (settings : PhotonMapSettings) (vgr : ℚ)
    (m : ℕ) (bounce : ℤ) (ray : Ray) : Vec3 :=
  (env.beamTrace bounce ray).foldl
    (fun acc c => acc + beamSegmentContribP env settings vgr m bounce ray c.2
      (env.pathPhotons c.1) (env.pathPhotons (c.1 + 1))) 0

/-- Lines 229-240 of the source: the common continuation after the
surface branch chose an outgoing direction wo and an updated throughput:
medium selection by geometric side, ray continuation from the hit point,
the numeric guards, and the conditional re-intersection. Sum.inr is a
break. -/
def surfaceContinue (env : GEnv) (settings : PhotonMapSettings)
    (bounce : ℤ) (st : GState) (wo throughput2 : Vec3) : GState ⊕ GState :=
  let info := st.info
  let geometricBackside := decide (wo.dot info.Ng < 0)
  let medium2 := env.selectMedium bounce info st.medium geometricBackside
  let ray2 := st.ray.scatter st.ray.hitpoint wo info.epsilon
  let stBreak : GState :=
    { st with bounce := bounce, ray := ray2, throughput := throughput2,
              medium := medium2 }
  if env.isnanQ (ray2.dir.sum + ray2.pos.sum) then Sum.inr stBreak
  else if env.isnanQ throughput2.sum then Sum.inr stBreak
  else
    let next :=
      if bounce < settings.maxBounces then
        match env.intersect bounce ray2 with
        | some it => (true, ray2.setFarT it.2, it.1)
        | none => (false, ray2, info)
      else (st.didHit, ray2, info)
    let stNext : GState :=
      { bounce := bounce, ray := next.2.1, throughput := throughput2,
        medium := medium2, didHit := next.1, info := next.2.2,
        result := st.result }
    Sum.inl stNext

/-- Lines 208-240 of the source: the surface interaction of the gather
loop. Evaluate forward transparency, branch on the sample stream between
transparent pass-through (continue straight, normalizing throughput by
the scalar) and a forced specular-lobe sample (failure breaks), then run
the shared continuation. Sum.inr is a break. -/
def surfaceInteract (env : GEnv) (settings : PhotonMapSettings)
    (bounce : ℤ) (st : GState) : GState ⊕ GState :=
  let info := st.info
  let transparency := env.bsdfForwardEval bounce info
  let transparencyScalar := transparency.avg
  if env.nextBoolean bounce transparencyScalar then
    surfaceContinue env settings bounce st st.ray.dir
      (st.throughput * transparency / transparencyScalar)
  else
    match env.bsdfSampleSpec bounce info with
    | none => Sum.inr { st with bounce := bounce }
    | some sw => surfaceContinue env settings bounce st sw.1 (st.throughput * sw.2)

/-- One iteration of the traceSample while loop (lines 146-241): the
bounce increment, the volumetric estimation block with its transmittance
attenuation, the no-hit break, then the surface interaction. -/
def traceSampleStep (env : GEnv) (settings : PhotonMapSettings) (vgr : ℚ)
    (st : GState) : GState ⊕ GState :=
  let bounce := st.bounce + 1
  let stM :=
    match st.medium with
    | some m =>
      let result1 :=
        if env.hasMediumTree then
          st.result + st.throughput * pointKernelEstimate env settings m bounce st.ray
        else if env.hasBeamBvh then
          st.result + st.throughput * beamEstimate env settings vgr m bounce st.ray
        else st.result
      { st with result := result1,
                throughput := st.throughput * env.transmittance m bounce st.ray }
    | none => st
  if !stM.didHit then Sum.inr { stM with bounce := bounce }
  else surfaceInteract env settings bounce stM

/-- The traceSample while loop, fuel-bounded, with the loop condition of
line 146 of the source. A break carries the state at the break point. -/
def traceSampleLoop (env : GEnv) (settings : PhotonMapSettings) (vgr : ℚ) :
    ℕ → GState → GState
  | 0, st => st
  | Nat.succ fuel, st =>
    if (st.medium.isSome || st.didHit) &&
        decide (st.bounce < settings.maxBounces) then
      match traceSampleStep env settings vgr st with
      | Sum.inl st1 => traceSampleLoop env settings vgr fuel st1
      | Sum.inr st1 => st1
    else st

/-- Lines 261-268 of the source: the per-photon term of the surface
density estimate, discarded by continue when the combined path length is
out of range. -/
def surfacePhotonTerm (env : GEnv) (settings : PhotonMapSettings)
    (bounce : ℤ) (info : IInfo) (ph : Photon) : Vec3 :=
  let fullPathBounce := bounce + ph.bounce - 1
  if fullPathBounce < settings.minBounces ∨ settings.maxBounces ≤ fullPathBounce then 0
  else
    let wo := env.frameToLocal info (-ph.dir)
    ph.power * env.bsdfEval info wo / abs wo.z

/-- The per-photon surface term without the combined-path-length guard of
lines 261-263. -/
def surfaceTermBody (env : GEnv) (info : IInfo) (ph : Photon) : Vec3 :=
  let wo := env.frameToLocal info (-ph.dir)
  ph.power * env.bsdfEval info wo / abs wo.z

/-- Lines 259-269 of the source: the accumulated surface density
estimate over the returned neighbour list. -/
def surfaceGatherEstimate (env : GEnv) (settings : PhotonMapSettings)
    (bounce : ℤ) (info : IInfo) (q : List (Photon × ℚ)) : Vec3 :=
  q.foldl (fun acc pd => acc + surfacePhotonTerm env settings bounce info pd.1) 0

/-- Lines 248-249 of the source: the directly evaluated emission of the
final hit, added when it is emissive and past the minimum bounce count. -/
def gatherEmissivePart (env : GEnv) (settings : PhotonMapSettings)
    (st : GState) : Vec3 :=
  if env.isEmissive st.info && decide (settings.minBounces < st.bounce) then
    st.result + st.throughput * env.evalDirect st.info
  else st.result

/-- Lines 251-271 of the source, given the neighbour list the k-NN query
filled: on an empty result return the accumulated radiance as-is,
otherwise add the normalized surface estimate; line 270 reads the first
stored distance (the query's root entry) as the squared normalization
radius when the query returned a full gatherCount, the squared gather
radius otherwise. -/
def surfaceGatherPart (env : GEnv) (settings : PhotonMapSettings)
    (gatherRadius : ℚ) (st : GState) (q : List (Photon × ℚ))
    (result1 : Vec3) : Vec3 :=
  match q with
  | [] => result1
  | pd :: rest =>
    let surfaceEstimate :=
      surfaceGatherEstimate env settings st.bounce st.info (pd :: rest)
    let radiusSq :=
      if (pd :: rest).length = settings.gatherCount then pd.2
      else gatherRadius * gatherRadius
    result1 + st.throughput * surfaceEstimate * (env.invPi / radiusSq)

/-- Lines 243-273 of the source: the post-loop part of traceSample: the
no-hit and infinite-light path, the emissive-hit addition, then the
bounded k-nearest-neighbour query at the final hit point and the
normalized surface estimate. -/
def gatherFinish (env : GEnv) (settings : PhotonMapSettings)
    (gatherRadius : ℚ) (st : GState) : Vec3 :=
  if !st.didHit then
    if st.medium.isNone && decide (settings.minBounces < st.bounce) then
      match env.intersectInfinites st.ray with
      | some e => st.result + st.throughput * e
      | none => st.result
    else st.result
  else
    surfaceGatherPart env settings gatherRadius st
      (env.knn st.ray.hitpoint settings.gatherCount gatherRadius)
      (gatherEmissivePart env settings st)

/-- PhotonTracer::traceSample (lines 123-274 of the source): camera
sampling, the gather loop, and the post-loop density estimation. -/
def traceSample (env : GEnv) (settings : PhotonMapSettings)
    (gatherRadius vgr : ℚ) : Vec3 :=
  match env.camPosition with
  | none => 0
  | some pw =>
    match env.camDirection with
    | none => 0
    | some dw =>
      let throughput := pw.2 * dw.2
      let ray := (mkRay pw.1 dw.1).setPrimaryRay true
      let first :=
        match env.intersect 0 ray with
        | some it => (true, ray.setFarT it.2, it.1)
        | none => (false, ray, env.info0)
      let st0 : GState :=
        { bounce := 0, ray := first.2.1, throughput := throughput,
          medium := env.camMedium, didHit := first.1, info := first.2.2,
          result := 0 }
      gatherFinish env settings gatherRadius
        (traceSampleLoop env settings vgr settings.maxBounces.toNat st0)

/-- The squared distance to the farthest returned neighbour, written from
the words of the spec for comparison with the normalization radius the
code uses. -/
def farthestDistSq (q : List (Photon × ℚ)) : ℚ :=
  match q with
  | [] => 0
  | x :: r => r.foldl (fun mx y => max mx y.2) x.2

/-- Modelled from the spec: the contract of the k-NN surface-photon query
(KdTree::nearestNeighbours, not under src/): the distance buffer is a
max-heap over the returned squared distances, so its first entry is the
squared distance to the farthest returned neighbour. -/
def knnHeadIsFarthest (q : List (Photon × ℚ)) : Prop :=
  ∀ x ∈ q, x.2 ≤ (match q with | [] => 0 | y :: _ => y.2)

/-- The ranges carried by either outcome of a tracePhoton loop body. -/
def stepRanges (r : PTState × PTRanges ⊕ PTRanges) : PTRanges :=
  match r with
  | Sum.inl pr => pr.2
  | Sum.inr rs => rs

/-- The state carried by either outcome of a traceSample loop body. -/
def outState (r : GState ⊕ GState) : GState :=
  match r with
  | Sum.inl st => st
  | Sum.inr st => st

/-- Bounds relating an updated range triple to the capacities of the
original triple: counts within the original capacities, capacities
unchanged. -/
def rangesBounded (rs0 rs : PTRanges) : Prop :=
  rs.surfaceRange.buf.length ≤ rs0.surfaceRange.capacity ∧
  rs.volumeRange.buf.length ≤ rs0.volumeRange.capacity ∧
  rs.pathRange.buf.length ≤ rs0.pathRange.capacity ∧
  rs.surfaceRange.capacity = rs0.surfaceRange.capacity ∧
  rs.volumeRange.capacity = rs0.volumeRange.capacity ∧
  rs.pathRange.capacity = rs0.pathRange.capacity

/-- Every element of the new list is either an element of the old list or
satisfies P: the shape of deposit-tracking invariants. -/
def NewOnly {α : Type} (P : α → Prop) (old new : List α) : Prop :=
  ∀ p ∈ new, p ∈ old ∨ P p

/-- A concrete non-specular intersection record used by concrete runs. -/
def infoA : IInfo :=
  { p := ⟨1, 0, 0⟩, Ng := ⟨1, 0, 0⟩, Ns := ⟨1, 0, 0⟩, epsilon := 0,
    bsdfPureSpecular := false }

/-- A concrete emission-tracing environment: the light samples succeed,
every ray hits a non-specular surface at distance 1, and the shared
surface-scattering step declines, ending the path after one bounce. -/
def envA : PTEnv :=
  { lightPdf := 1, lightMedium := none,
    samplePosition := some (⟨0, 0, 0⟩, ⟨1, 1, 1⟩),
    sampleDirection := some (⟨1, 0, 0⟩, ⟨1, 1, 1⟩),
    sampleDistance := fun _ _ _ _ => none,
    phaseSample := fun _ _ => none,
    handleSurface := fun _ _ _ _ _ _ => none,
    intersect := fun _ _ => some (infoA, 1),
    isnanQ := fun _ => false,
    info0 := infoA }

/-- Concrete settings for the concrete emission run. -/
def sA : PhotonMapSettings := { maxBounces := 3, minBounces := 0, gatherCount := 4 }

/-- Empty ranges of capacity 4. -/
def rsA : PTRanges :=
  { surfaceRange := { buf := [], capacity := 4 },
    volumeRange := { buf := [], capacity := 4 },
    pathRange := { buf := [], capacity := 4 } }

/-- Empty ranges of capacity 0: all three start full. -/
def rsF : PTRanges :=
  { surfaceRange := { buf := [], capacity := 0 },
    volumeRange := { buf := [], capacity := 0 },
    pathRange := { buf := [], capacity := 0 } }

/-- A concrete loop state at a surface hit, bounce counter 0. -/
def stA : PTState :=
  { bounce := 0, ray := (mkRay ⟨0, 0, 0⟩ ⟨1, 0, 0⟩).setFarT 1,
    throughput := ⟨1, 1, 1⟩, medium := none, mstate := 0, hitSurface := true,
    wasSpecular := true, didHit := true, info := infoA }

/-- A concrete surface photon one bounce away from the camera hit. -/
def phW : Photon :=
  { pos := ⟨1, 0, 0⟩, dir := ⟨0, 0, -1⟩, power := ⟨1, 1, 1⟩, bounce := 1 }

/-- A concrete gather state that ended the loop on a surface hit. -/
def stW : GState :=
  { bounce := 1, ray := (mkRay ⟨0, 0, 0⟩ ⟨1, 0, 0⟩).setFarT 1,
    throughput := ⟨1, 1, 1⟩, medium := none, didHit := true, info := infoA,
    result := 0 }

/-- Concrete gather settings: a gather count of 1 so that the concrete
query below returns a full count. -/
def sW : PhotonMapSettings := { maxBounces := 5, minBounces := 0, gatherCount := 1 }

/-- A concrete gather environment: no volumetric indices, a half-white
forward transparency, a sample stream whose nextBoolean accepts exactly
the strictly positive probabilities, and a k-NN query returning one
photon at squared distance 1/4. -/
def gEnvW : GEnv :=
  { camPosition := some (⟨0, 0, 0⟩, ⟨1, 1, 1⟩),
    camDirection := some (⟨1, 0, 0⟩, ⟨1, 1, 1⟩),
    camMedium := none,
    hasMediumTree := false, hasBeamBvh := false,
    intersect := fun _ _ => none,
    pointQuery := fun _ _ => [],
    beamTrace := fun _ _ => [],
    pathPhotons := fun _ =>
      { pos := 0, power := 1, dir := 0, length := 0, bounce := 0, specFlag := false },
    phaseEval := fun _ _ _ _ => 1,
    transmittance := fun _ _ _ => 1,
    sigmaT := fun _ _ => 1,
    bsdfForwardEval := fun _ _ => ⟨1/2, 1/2, 1/2⟩,
    nextBoolean := fun _ q => decide (0 < q),
    bsdfSampleSpec := fun _ _ => none,
    selectMedium := fun _ _ mm _ => mm,
    intersectInfinites := fun _ => none,
    isEmissive := fun _ => false,
    evalDirect := fun _ => 0,
    knn := fun _ _ _ => [(phW, 1/4)],
    frameToLocal := fun _ v => v,
    bsdfEval := fun _ _ => 1,
    isnanQ := fun _ => false,
    invPi := 7/22,
    sqrtQ := fun q => q,
    info0 := infoA }

/-- Concrete settings for the beam-query counterexample run: a minimum
bounce count of 1 is in force. -/
def sX : PhotonMapSettings := { maxBounces := 10, minBounces := 1, gatherCount := 4 }

/-- The concrete camera ray of the beam counterexample. -/
def rayX : Ray :=
  { pos := ⟨0, 0, 0⟩, dir := ⟨1, 0, 0⟩, nearT := 0, farT := none,
    primaryRay := true }

/-- The first path photon of the counterexample beam segment: stored
bounce index 0, perpendicular to the camera ray, crossing it at distance
one half. -/
def p0X : PathPhoton :=
  { pos := ⟨1/2, -1/2, 0⟩, power := 1, dir := ⟨0, 1, 0⟩, length := 1,
    bounce := 0, specFlag := false }

/-- The second path photon of the counterexample beam segment, carrying
the deposited power read by the contribution. -/
def p1X : PathPhoton :=
  { pos := ⟨1/2, 1/2, 0⟩, power := 1, dir := ⟨0, 1, 0⟩, length := 0,
    bounce := 1, specFlag := false }

/-- Packed per-axis candidate bounds whose dominant-axis slab is the
degenerate interval [0, 0], exactly containing the counterexample hit
point. -/
def boundsX : ℕ → ℕ → ℚ := fun _ _ => 0

/-- A concrete gather environment whose beam BVH yields exactly the
counterexample segment. -/
def gEnvX : GEnv :=
  { camPosition := none, camDirection := none, camMedium := none,
    hasMediumTree := false, hasBeamBvh := true,
    intersect := fun _ _ => none,
    pointQuery := fun _ _ => [],
    beamTrace := fun _ _ => [(0, boundsX)],
    pathPhotons := fun i => if i = 0 then p0X else p1X,
    phaseEval := fun _ _ _ _ => 1,
    transmittance := fun _ _ _ => 1,
    sigmaT := fun _ _ => 1,
    bsdfForwardEval := fun _ _ => 0,
    nextBoolean := fun _ _ => false,
    bsdfSampleSpec := fun _ _ => none,
    selectMedium := fun _ _ mm _ => mm,
    intersectInfinites := fun _ => none,
    isEmissive := fun _ => false,
    evalDirect := fun _ => 0,
    knn := fun _ _ _ => [],
    frameToLocal := fun _ v => v,
    bsdfEval := fun _ _ => 1,
    isnanQ := fun _ => false,
    invPi := 7/22,
    sqrtQ := fun q => q,
    info0 := infoA }

/-- Concrete settings with a single allowed bounce: the loop fuel is
zero, so tracePhoton stops after the initial emission record. -/
def sB : PhotonMapSettings := { maxBounces := 1, minBounces := 0, gatherCount := 4 }

/-- The initial path photon of the concrete one-bounce emission run,
with its power written exactly as tracePhoton computes it. -/
def pEm : PathPhoton :=
  ⟨⟨0, 0, 0⟩, (⟨1, 1, 1⟩ : Vec3) * ⟨1, 1, 1⟩ / (1 : ℚ), 0, 0, 0, false⟩

theorem Vec3.mul_mk (a b : Vec3) : a * b = ⟨a.x * b.x, a.y * b.y, a.z * b.z⟩ := rfl

theorem Vec3.add_mk (a b : Vec3) : a + b = ⟨a.x + b.x, a.y + b.y, a.z + b.z⟩ := rfl

theorem Vec3.sub_mk (a b : Vec3) : a - b = ⟨a.x - b.x, a.y - b.y, a.z - b.z⟩ := rfl

theorem Vec3.neg_mk (a : Vec3) : -a = ⟨-a.x, -a.y, -a.z⟩ := rfl

theorem Vec3.smul_mk (a : Vec3) (q : ℚ) : a * q = ⟨a.x * q, a.y * q, a.z * q⟩ := rfl

theorem Vec3.smulL_mk (q : ℚ) (a : Vec3) : q * a = ⟨q * a.x, q * a.y, q * a.z⟩ := rfl

theorem Vec3.div_mk (a : Vec3) (q : ℚ) : a / q = ⟨a.x / q, a.y / q, a.z / q⟩ := rfl

theorem Vec3.zero_x : (0 : Vec3).x = 0 := rfl

theorem Vec3.zero_y : (0 : Vec3).y = 0 := rfl

theorem Vec3.zero_z : (0 : Vec3).z = 0 := rfl

theorem Vec3.one_x : (1 : Vec3).x = 1 := rfl

theorem Vec3.one_y : (1 : Vec3).y = 1 := rfl

theorem Vec3.one_z : (1 : Vec3).z = 1 := rfl

theorem Vec3.one_mk : (1 : Vec3) = ⟨1, 1, 1⟩ := rfl

theorem Vec3.zero_mk : (0 : Vec3) = ⟨0, 0, 0⟩ := rfl

theorem Vec3.zero_mul (v : Vec3) : (0 : Vec3) * v = 0 := by
  cases v
  simp [Vec3.mul_mk, Vec3.zero_mk]

theorem Vec3.mul_one (v : Vec3) : v * (1 : Vec3) = v := by
  cases v
  simp [Vec3.mul_mk, Vec3.one_mk]

/-- C1 (amended). A candidate contributes to a density estimate exactly
when its combined path length passes the bounce filter, and the filter of
the point-kernel query and of the surface gather is camera bounces plus
stored bounce count minus one against [minBounces, maxBounces), while the
filter of the beam-intersection query is camera bounces plus the first
path photon's stored bounce count, without the minus one, against the
same half-open interval; in range (both boundaries minBounces and
maxBounces - 1 included) the candidate contributes its unfiltered term,
out of range it contributes zero. -/
theorem C1_combinedPathLengthFilter (env : GEnv) (settings : PhotonMapSettings)
    (vgr : ℚ) (m : ℕ) (bounce : ℤ) (ray : Ray) (bounds : ℕ → ℕ → ℚ)
    (c : VolumePhoton × ℚ × ℚ) (info : IInfo) (ph : Photon) (p0 p1 : PathPhoton) :
    pointKernelContrib env settings m bounce ray c =
      (if settings.minBounces ≤ bounce + c.1.bounce - 1 ∧
          bounce + c.1.bounce - 1 < settings.maxBounces
        then pointKernelBody env m bounce ray c else 0) ∧
    surfacePhotonTerm env settings bounce info ph =
      (if settings.minBounces ≤ bounce + ph.bounce - 1 ∧
          bounce + ph.bounce - 1 < settings.maxBounces
        then surfaceTermBody env info ph else 0) ∧
    beamSegmentContribP env settings vgr m bounce ray bounds p0 p1 =
      (if settings.minBounces ≤ bounce + p0.bounce ∧
          bounce + p0.bounce < settings.maxBounces
        then beamSegmentBody env vgr m bounce ray bounds p0 p1 else 0) := by
  refine ⟨?_, ?_, ?_⟩
  · unfold pointKernelContrib pointKernelBody
    by_cases h : bounce + c.1.bounce - 1 < settings.minBounces ∨
        settings.maxBounces ≤ bounce + c.1.bounce - 1
    · have h2 : ¬(settings.minBounces ≤ bounce + c.1.bounce - 1 ∧
          bounce + c.1.bounce - 1 < settings.maxBounces) := by omega
      rw [if_pos h, if_neg h2]
    · have h2 : settings.minBounces ≤ bounce + c.1.bounce - 1 ∧
          bounce + c.1.bounce - 1 < settings.maxBounces := by omega
      rw [if_neg h, if_pos h2]
  · unfold surfacePhotonTerm surfaceTermBody
    by_cases h : bounce + ph.bounce - 1 < settings.minBounces ∨
        settings.maxBounces ≤ bounce + ph.bounce - 1
    · have h2 : ¬(settings.minBounces ≤ bounce + ph.bounce - 1 ∧
          bounce + ph.bounce - 1 < settings.maxBounces) := by omega
      rw [if_pos h, if_neg h2]
    · have h2 : settings.minBounces ≤ bounce + ph.bounce - 1 ∧
          bounce + ph.bounce - 1 < settings.maxBounces := by omega
      rw [if_neg h, if_pos h2]
  · unfold beamSegmentContribP beamSegmentBody
    by_cases h : bounce + p0.bounce < settings.minBounces ∨
        settings.maxBounces ≤ bounce + p0.bounce
    · have h2 : ¬(settings.minBounces ≤ bounce + p0.bounce ∧
          bounce + p0.bounce < settings.maxBounces) := by omega
      rw [if_pos h, if_neg h2]
    · have h2 : settings.minBounces ≤ bounce + p0.bounce ∧
          bounce + p0.bounce < settings.maxBounces := by omega
      rw [if_neg h, if_pos h2]

/-- C1 (counterexample to the claim as stated). In a concrete
beam-intersection query the visited segment contributes a nonzero
estimate although camera bounces plus the stored bounce count minus one
lies below minBounces: the beam filter uses the sum without the minus
one. -/
theorem C1_counterexample :
    beamEstimate gEnvX sX 1 1 1 rayX ≠ 0 ∧
    1 + (gEnvX.pathPhotons 0).bounce - 1 < sX.minBounces := by
  constructor
  · have hval : beamEstimate gEnvX sX 1 1 1 rayX = ⟨1/2, 1/2, 1/2⟩ := by
      norm_num [beamEstimate, beamSegmentContribP, gEnvX, sX, rayX, p0X, p1X,
        boundsX, Vec3.cross, Vec3.dot, Vec3.lengthSq, Vec3.absV, Vec3.maxDim,
        Vec3.nth, mkRay, Ray.setFarT, Ray.farLe, Vec3.one_mk,
        Vec3.mul_mk, Vec3.add_mk, Vec3.sub_mk, Vec3.neg_mk, Vec3.smul_mk,
        Vec3.smulL_mk, Vec3.div_mk, Vec3.zero_x, Vec3.zero_y, Vec3.zero_z,
        Vec3.one_x, Vec3.one_y, Vec3.one_z, Vec3.mk.injEq, sqr, List.foldl]
    rw [hval]
    simp only [Vec3.zero_mk, ne_eq, Vec3.mk.injEq, not_and]
    norm_num
  · decide

/-- C8. The beam-intersection contribution of a segment takes all its
geometric data from the first path photon p0 of the pair (its position,
direction, stored bounce index and segment length; its power is never
read) and multiplies in the power of the second path photon p1 (none of
whose other fields is read): it is the contribution computed with unit
p1 power, scaled by p1's power. -/
theorem C8_beamSegmentDataSources (env : GEnv) (settings : PhotonMapSettings)
    (vgr : ℚ) (m : ℕ) (bounce : ℤ) (ray : Ray) (bounds : ℕ → ℕ → ℚ)
    (p0 p0' p1 p1' : PathPhoton)
    (h1 : p1'.power = p1.power)
    (h2 : p0'.pos = p0.pos) (h3 : p0'.dir = p0.dir)
    (h4 : p0'.bounce = p0.bounce) (h5 : p0'.length = p0.length) :
    beamSegmentContribP env settings vgr m bounce ray bounds p0 p1' =
      beamSegmentContribP env settings vgr m bounce ray bounds p0 p1 ∧
    beamSegmentContribP env settings vgr m bounce ray bounds p0' p1 =
      beamSegmentContribP env settings vgr m bounce ray bounds p0 p1 ∧
    beamSegmentContribP env settings vgr m bounce ray bounds p0 p1 =
      beamSegmentContribP env settings vgr m bounce ray bounds p0
        { p1 with power := 1 } * p1.power := by
  refine ⟨?_, ?_, ?_⟩
  · unfold beamSegmentContribP
    rw [h1]
  · unfold beamSegmentContribP
    rw [h2, h3, h4, h5]
  · unfold beamSegmentContribP
    simp only [show ({ p1 with power := 1 } : PathPhoton).power = 1 from rfl]
    split_ifs <;> first
      | exact (Vec3.zero_mul _).symm
      | rw [Vec3.mul_one]

/-- C8 (witness). The data-source facts applied to the concrete
counterexample segment: perturbing p1's non-power fields and p0's power
leaves the contribution unchanged. -/
theorem C8_witness :
    beamSegmentContribP gEnvX sX 1 1 1 rayX boundsX p0X
        { p1X with pos := ⟨9, 9, 9⟩, bounce := 7 } =
      beamSegmentContribP gEnvX sX 1 1 1 rayX boundsX p0X p1X ∧
    beamSegmentContribP gEnvX sX 1 1 1 rayX boundsX
        { p0X with power := ⟨5, 5, 5⟩ } p1X =
      beamSegmentContribP gEnvX sX 1 1 1 rayX boundsX p0X p1X := by
  have h := C8_beamSegmentDataSources gEnvX sX 1 1 1 rayX boundsX p0X
    { p0X with power := ⟨5, 5, 5⟩ } p1X
    { p1X with pos := ⟨9, 9, 9⟩, bounce := 7 }
    rfl rfl rfl rfl rfl
  exact ⟨h.1, h.2.1⟩

theorem PhotonRange.length_addPhoton {α : Type} (r : PhotonRange α) (p : α) :
    (r.addPhoton p).buf.length = r.buf.length + 1 := by
  simp [PhotonRange.addPhoton]

theorem PhotonRange.capacity_addPhoton {α : Type} (r : PhotonRange α) (p : α) :
    (r.addPhoton p).capacity = r.capacity := rfl

theorem PhotonRange.lt_of_full_eq_false {α : Type} {r : PhotonRange α}
    (h : r.full = false) : r.buf.length < r.capacity := by
  simp [PhotonRange.full] at h
  omega

theorem NewOnly.refl {α : Type} (P : α → Prop) (l : List α) : NewOnly P l l :=
  fun p hp => Or.inl hp

theorem NewOnly.append_one {α : Type} {P : α → Prop} {old new : List α} {a : α}
    (h : NewOnly P old new) (ha : P a) : NewOnly P old (new ++ [a]) := by
  intro p hp
  rcases List.mem_append.mp hp with h1 | h2
  · exact h p h1
  · rw [List.mem_singleton.mp h2]
    exact Or.inr ha

theorem stepRanges_tracePhotonTail (settings : PhotonMapSettings) (env : PTEnv)
    (bounce : ℤ) (ray : Ray) (throughput : Vec3) (medium : Option ℕ)
    (mstate : ℕ) (hitSurface wasSpecular didHit : Bool) (info : IInfo)
    (rs : PTRanges) :
    stepRanges (tracePhotonTail settings env bounce ray throughput medium
      mstate hitSurface wasSpecular didHit info rs) = rs := by
  unfold tracePhotonTail
  split_ifs <;> rfl

theorem stepRanges_tracePhotonSurf (settings : PhotonMapSettings) (env : PTEnv)
    (bounce : ℤ) (ray : Ray) (throughput : Vec3) (medium : Option ℕ)
    (mstate : ℕ) (hitSurface wasSpecular didHit : Bool) (info : IInfo)
    (rs : PTRanges) :
    stepRanges (tracePhotonSurf settings env bounce ray throughput medium
      mstate hitSurface wasSpecular didHit info rs) =
      (if hitSurface then surfaceHitDeposit bounce info ray throughput rs else rs) := by
  unfold tracePhotonSurf
  cases hitSurface with
  | false =>
    simp only [Bool.false_eq_true, if_false]
    split_ifs with hfull
    · rfl
    · rw [stepRanges_tracePhotonTail]
  | true =>
    simp only [if_true]
    split_ifs with hfull
    · rfl
    · cases env.handleSurface bounce info ray throughput medium wasSpecular with
      | none => rfl
      | some h => rw [stepRanges_tracePhotonTail]

theorem tracePhotonStep_ranges_pres (settings : PhotonMapSettings) (env : PTEnv)
    (st : PTState) (rs : PTRanges) (P : PTRanges → Prop)
    (h1 : ∀ i r τ rs1, P rs1 → P (surfaceHitDeposit (st.bounce + 1) i r τ rs1))
    (h2 : ∀ d pn τ rs1, P rs1 → P (mediumScatterDeposit (st.bounce + 1) d pn τ rs1))
    (hP : P rs) : P (stepRanges (tracePhotonStep settings env st rs)) := by
  unfold tracePhotonStep
  cases hm : st.medium with
  | none =>
    rw [stepRanges_tracePhotonSurf]
    split_ifs with hs
    · exact h1 _ _ _ _ hP
    · exact hP
  | some m =>
    dsimp only
    cases hd : env.sampleDistance (st.bounce + 1) m st.ray st.mstate with
    | none => exact hP
    | some ms =>
      dsimp only
      split_ifs with hex
      · rw [stepRanges_tracePhotonSurf]
        rw [if_pos rfl]
        exact h1 _ _ _ _ hP
      · cases hp : env.phaseSample (st.bounce + 1) st.ray.dir with
        | none => exact h2 _ _ _ _ hP
        | some ph =>
          rw [stepRanges_tracePhotonSurf]
          rw [if_neg (by simp)]
          exact h2 _ _ _ _ hP

theorem tracePhotonLoop_ranges_pres (settings : PhotonMapSettings) (env : PTEnv)
    (P : PTRanges → Prop)
    (h1 : ∀ b i r τ rs1, P rs1 → P (surfaceHitDeposit b i r τ rs1))
    (h2 : ∀ b d pn τ rs1, P rs1 → P (mediumScatterDeposit b d pn τ rs1)) :
    ∀ (fuel : ℕ) (st : PTState) (rs : PTRanges), P rs →
      P (tracePhotonLoop settings env fuel st rs).2 := by
  intro fuel
  induction fuel with
  | zero => intro st rs hP; exact hP
  | succ n ih =>
    intro st rs hP
    unfold tracePhotonLoop
    split_ifs with hc
    · have hpres := tracePhotonStep_ranges_pres settings env st rs P (h1 _) (h2 _) hP
      cases hstep : tracePhotonStep settings env st rs with
      | inl next =>
        rw [hstep] at hpres
        exact ih next.1 next.2 hpres
      | inr rs1 =>
        rw [hstep] at hpres
        exact hpres
    · exact hP

theorem tracePhoton_ranges_pres (settings : PhotonMapSettings) (env : PTEnv)
    (rs : PTRanges) (P : PTRanges → Prop)
    (h1 : ∀ b i r τ rs1, P rs1 → P (surfaceHitDeposit b i r τ rs1))
    (h2 : ∀ b d pn τ rs1, P rs1 → P (mediumScatterDeposit b d pn τ rs1))
    (h3 : ∀ pn τ rs1, P rs1 → P (emissionDeposit pn τ rs1))
    (hP : P rs) : P (tracePhoton settings env rs) := by
  unfold tracePhoton
  cases hsp : env.samplePosition with
  | none => exact hP
  | some pw =>
    cases hsd : env.sampleDirection with
    | none => exact hP
    | some dw =>
      dsimp only
      exact tracePhotonLoop_ranges_pres settings env P h1 h2 _ _ _ (h3 _ _ _ hP)

theorem Bool.full_false_of_not {b : Bool} (h : ¬b = true) : b = false :=
  Bool.eq_false_iff.mpr h

theorem rangesBounded_surfaceHitDeposit (rs0 : PTRanges) (b : ℤ) (i : IInfo)
    (r : Ray) (τ : Vec3) (rs : PTRanges) (h : rangesBounded rs0 rs) :
    rangesBounded rs0 (surfaceHitDeposit b i r τ rs) := by
  obtain ⟨hs, hv, hp, hcs, hcv, hcp⟩ := h
  unfold surfaceHitDeposit
  dsimp only
  split_ifs with hA hB hB
  · have hAf : rs.surfaceRange.full = false := by
      simp only [Bool.and_eq_true, Bool.not_eq_true'] at hA
      exact hA.2
    have hlt := PhotonRange.lt_of_full_eq_false hAf
    exact ⟨by dsimp only; simp only [PhotonRange.length_addPhoton]; omega,
      hv, hp, hcs, hcv, hcp⟩
  · have hAf : rs.surfaceRange.full = false := by
      simp only [Bool.and_eq_true, Bool.not_eq_true'] at hA
      exact hA.2
    have hlt := PhotonRange.lt_of_full_eq_false hAf
    have hlt2 := PhotonRange.lt_of_full_eq_false (Bool.full_false_of_not hB)
    refine ⟨?_, hv, ?_, hcs, hcv, hcp⟩
    · dsimp only
      simp only [PhotonRange.length_addPhoton]
      omega
    · dsimp only
      dsimp only at hlt2
      simp only [PhotonRange.length_addPhoton]
      omega
  · exact ⟨hs, hv, hp, hcs, hcv, hcp⟩
  · have hlt2 := PhotonRange.lt_of_full_eq_false (Bool.full_false_of_not hB)
    refine ⟨hs, hv, ?_, hcs, hcv, hcp⟩
    dsimp only
    simp only [PhotonRange.length_addPhoton]
    omega

theorem rangesBounded_mediumScatterDeposit (rs0 : PTRanges) (b : ℤ)
    (d pn τ : Vec3) (rs : PTRanges) (h : rangesBounded rs0 rs) :
    rangesBounded rs0 (mediumScatterDeposit b d pn τ rs) := by
  obtain ⟨hs, hv, hp, hcs, hcv, hcp⟩ := h
  unfold mediumScatterDeposit
  dsimp only
  split_ifs with hA hB hB
  · exact ⟨hs, hv, hp, hcs, hcv, hcp⟩
  · have hlt2 := PhotonRange.lt_of_full_eq_false (Bool.full_false_of_not hB)
    refine ⟨hs, hv, ?_, hcs, hcv, hcp⟩
    dsimp only
    simp only [PhotonRange.length_addPhoton]
    omega
  · have hlt := PhotonRange.lt_of_full_eq_false (Bool.full_false_of_not hA)
    exact ⟨hs, by dsimp only; simp only [PhotonRange.length_addPhoton]; omega,
      hp, hcs, hcv, hcp⟩
  · have hlt := PhotonRange.lt_of_full_eq_false (Bool.full_false_of_not hA)
    have hlt2 := PhotonRange.lt_of_full_eq_false (Bool.full_false_of_not hB)
    refine ⟨hs, ?_, ?_, hcs, hcv, hcp⟩
    · dsimp only
      simp only [PhotonRange.length_addPhoton]
      omega
    · dsimp only
      dsimp only at hlt2
      simp only [PhotonRange.length_addPhoton]
      omega

theorem rangesBounded_emissionDeposit (rs0 : PTRanges) (pn τ : Vec3)
    (rs : PTRanges) (h : rangesBounded rs0 rs) :
    rangesBounded rs0 (emissionDeposit pn τ rs) := by
  obtain ⟨hs, hv, hp, hcs, hcv, hcp⟩ := h
  unfold emissionDeposit
  dsimp only
  split_ifs with hA
  · exact ⟨hs, hv, hp, hcs, hcv, hcp⟩
  · have hlt := PhotonRange.lt_of_full_eq_false (Bool.full_false_of_not hA)
    refine ⟨hs, hv, ?_, hcs, hcv, hcp⟩
    dsimp only
    simp only [PhotonRange.length_addPhoton]
    omega

theorem surfaceHitDeposit_allFull (b : ℤ) (i : IInfo) (r : Ray) (τ : Vec3)
    (rs : PTRanges) (hS : rs.surfaceRange.full = true)
    (hP : rs.pathRange.full = true) :
    surfaceHitDeposit b i r τ rs = rs := by
  unfold surfaceHitDeposit
  simp [hS, hP]

theorem mediumScatterDeposit_allFull (b : ℤ) (d pn τ : Vec3) (rs : PTRanges)
    (hV : rs.volumeRange.full = true) (hP : rs.pathRange.full = true) :
    mediumScatterDeposit b d pn τ rs = rs := by
  unfold mediumScatterDeposit
  simp [hV, hP]

theorem tracePhotonSurf_allFull (settings : PhotonMapSettings) (env : PTEnv)
    (bounce : ℤ) (ray : Ray) (throughput : Vec3) (medium : Option ℕ)
    (mstate : ℕ) (hitSurface wasSpecular didHit : Bool) (info : IInfo)
    (rs : PTRanges) (hS : rs.surfaceRange.full = true)
    (hV : rs.volumeRange.full = true) (hP : rs.pathRange.full = true) :
    tracePhotonSurf settings env bounce ray throughput medium mstate
      hitSurface wasSpecular didHit info rs = Sum.inr rs := by
  unfold tracePhotonSurf
  cases hitSurface with
  | false => simp [hS, hV, hP]
  | true => simp [surfaceHitDeposit_allFull bounce info ray throughput rs hS hP, hS, hV, hP]

theorem tracePhotonStep_allFull (settings : PhotonMapSettings) (env : PTEnv)
    (st : PTState) (rs : PTRanges) (hS : rs.surfaceRange.full = true)
    (hV : rs.volumeRange.full = true) (hP : rs.pathRange.full = true) :
    tracePhotonStep settings env st rs = Sum.inr rs := by
  unfold tracePhotonStep
  cases hm : st.medium with
  | none => exact tracePhotonSurf_allFull _ _ _ _ _ _ _ _ _ _ _ _ hS hV hP
  | some m =>
    dsimp only
    cases hd : env.sampleDistance (st.bounce + 1) m st.ray st.mstate with
    | none => rfl
    | some ms =>
      dsimp only
      split_ifs with hex
      · exact tracePhotonSurf_allFull _ _ _ _ _ _ _ _ _ _ _ _ hS hV hP
      · rw [mediumScatterDeposit_allFull _ _ _ _ rs hV hP]
        cases hp : env.phaseSample (st.bounce + 1) st.ray.dir with
        | none => rfl
        | some ph => exact tracePhotonSurf_allFull _ _ _ _ _ _ _ _ _ _ _ _ hS hV hP

theorem tracePhotonLoop_allFull (settings : PhotonMapSettings) (env : PTEnv)
    (fuel : ℕ) (st : PTState) (rs : PTRanges)
    (hS : rs.surfaceRange.full = true) (hV : rs.volumeRange.full = true)
    (hP : rs.pathRange.full = true) :
    (tracePhotonLoop settings env fuel st rs).2 = rs ∧
    (tracePhotonLoop settings env fuel st rs).1.bounce ≤ st.bounce + 1 := by
  cases fuel with
  | zero =>
    refine ⟨rfl, ?_⟩
    show st.bounce ≤ st.bounce + 1
    omega
  | succ n =>
    unfold tracePhotonLoop
    split_ifs with hc
    · rw [tracePhotonStep_allFull settings env st rs hS hV hP]
      exact ⟨rfl, le_refl _⟩
    · refine ⟨rfl, ?_⟩
      show st.bounce ≤ st.bounce + 1
      omega

/-- C3. Every deposit site of tracePhoton appends only to a range that is
not full, so after any execution the count of each of the three output
ranges still lies within its capacity (and the capacities are
unchanged); and whenever all three ranges are full at a loop entry, the
loop deposits nothing further (the ranges come back untouched) and
executes at most one more (immediately breaking) iteration. -/
theorem C3_boundedRanges (settings : PhotonMapSettings) (env : PTEnv)
    (rs : PTRanges) (st : PTState) (fuel : ℕ)
    (h1 : rs.surfaceRange.buf.length ≤ rs.surfaceRange.capacity)
    (h2 : rs.volumeRange.buf.length ≤ rs.volumeRange.capacity)
    (h3 : rs.pathRange.buf.length ≤ rs.pathRange.capacity) :
    ((tracePhoton settings env rs).surfaceRange.buf.length ≤
        rs.surfaceRange.capacity ∧
      (tracePhoton settings env rs).volumeRange.buf.length ≤
        rs.volumeRange.capacity ∧
      (tracePhoton settings env rs).pathRange.buf.length ≤
        rs.pathRange.capacity) ∧
    (rs.surfaceRange.full = true → rs.volumeRange.full = true →
      rs.pathRange.full = true →
      (tracePhotonLoop settings env fuel st rs).2 = rs ∧
      (tracePhotonLoop settings env fuel st rs).1.bounce ≤ st.bounce + 1) := by
  constructor
  · have hpres := tracePhoton_ranges_pres settings env rs (rangesBounded rs)
      (rangesBounded_surfaceHitDeposit rs)
      (rangesBounded_mediumScatterDeposit rs)
      (rangesBounded_emissionDeposit rs)
      ⟨h1, h2, h3, rfl, rfl, rfl⟩
    exact ⟨hpres.1, hpres.2.1, hpres.2.2.1⟩
  · intro hS hV hP
    exact tracePhotonLoop_allFull settings env fuel st rs hS hV hP

/-- C3 (witness). With all three capacities zero the ranges start full:
tracePhoton deposits nothing and the loop returns the ranges untouched. -/
theorem C3_witness :
    (tracePhoton sA envA rsF).surfaceRange.buf.length ≤
        rsF.surfaceRange.capacity ∧
    (tracePhotonLoop sA envA 5 stA rsF).2 = rsF := by
  have h := C3_boundedRanges sA envA rsF stA 5 (by decide) (by decide) (by decide)
  exact ⟨h.1.1, (h.2 (by decide) (by decide) (by decide)).1⟩

/-- C4. At a surface hit of tracePhoton (the lines 84-98 deposit block,
which the loop body runs exactly when hitSurface holds): a surface
photon is appended if and only if the BSDF is not purely specular and
the surface range is not full, and its stored power is the current
throughput times the absolute ratio of the shading-normal cosine to the
geometric-normal cosine of the incident direction; a path photon is
appended whenever the path range is not full, regardless of
specularity; and the ranges produced by the post-medium part of the
loop body at a surface hit are exactly those of this deposit block. -/
theorem C4_surfaceHitDeposit (bounce : ℤ) (info : IInfo) (ray : Ray)
    (throughput : Vec3) (rs : PTRanges) :
    (info.bsdfPureSpecular = false → rs.surfaceRange.full = false →
      (surfaceHitDeposit bounce info ray throughput rs).surfaceRange.buf =
        rs.surfaceRange.buf ++
          [⟨info.p, ray.dir,
            throughput * abs (info.Ns.dot ray.dir / info.Ng.dot ray.dir),
            bounce⟩]) ∧
    (info.bsdfPureSpecular = true ∨ rs.surfaceRange.full = true →
      (surfaceHitDeposit bounce info ray throughput rs).surfaceRange =
        rs.surfaceRange) ∧
    (rs.pathRange.full = false →
      (surfaceHitDeposit bounce info ray throughput rs).pathRange.buf =
        rs.pathRange.buf ++ [⟨info.p, throughput, 0, 0, bounce, false⟩]) ∧
    (rs.pathRange.full = true →
      (surfaceHitDeposit bounce info ray throughput rs).pathRange =
        rs.pathRange) ∧
    (surfaceHitDeposit bounce info ray throughput rs).volumeRange =
      rs.volumeRange ∧
    (∀ (settings : PhotonMapSettings) (env : PTEnv) (medium : Option ℕ)
        (mstate : ℕ) (wasSpecular didHit : Bool),
      stepRanges (tracePhotonSurf settings env bounce ray throughput medium
          mstate true wasSpecular didHit info rs) =
        surfaceHitDeposit bounce info ray throughput rs) := by
  refine ⟨?_, ?_, ?_, ?_, ?_, ?_⟩
  · intro hpure hfull
    unfold surfaceHitDeposit
    split_ifs <;> by_cases hpf : rs.pathRange.full = true <;>
      simp_all [PhotonRange.addPhoton]
  · intro hcase
    unfold surfaceHitDeposit
    rcases hcase with hpure | hfull
    · split_ifs <;> by_cases hpf : rs.pathRange.full = true <;> simp_all
    · split_ifs <;> by_cases hpf : rs.pathRange.full = true <;> simp_all
  · intro hfull
    unfold surfaceHitDeposit
    split_ifs <;>
      simp_all [PhotonRange.addPhoton, PathPhoton.setPathInfo]
  · intro hfull
    unfold surfaceHitDeposit
    split_ifs <;> simp_all
  · unfold surfaceHitDeposit
    dsimp only
    split_ifs <;> by_cases hpf : rs.pathRange.full = true <;> simp_all
  · intro settings env medium mstate wasSpecular didHit
    rw [stepRanges_tracePhotonSurf]
    rw [if_pos rfl]

/-- C4 (witness). The deposit facts applied at a concrete non-specular
hit with non-full ranges: both the surface photon with its corrected
power and the unconditional path photon are appended. -/
theorem C4_witness :
    (surfaceHitDeposit 1 infoA stA.ray ⟨1, 1, 1⟩ rsA).surfaceRange.buf =
      rsA.surfaceRange.buf ++
        [⟨infoA.p, stA.ray.dir,
          (⟨1, 1, 1⟩ : Vec3) *
            abs (infoA.Ns.dot stA.ray.dir / infoA.Ng.dot stA.ray.dir),
          1⟩] ∧
    (surfaceHitDeposit 1 infoA stA.ray ⟨1, 1, 1⟩ rsA).pathRange.buf =
      rsA.pathRange.buf ++ [⟨infoA.p, ⟨1, 1, 1⟩, 0, 0, 1, false⟩] := by
  have h := C4_surfaceHitDeposit 1 infoA stA.ray ⟨1, 1, 1⟩ rsA
  exact ⟨h.1 (by decide) (by decide), h.2.2.1 (by decide)⟩

theorem surfaceHitDeposit_eq (b : ℤ) (i : IInfo) (r : Ray) (τ : Vec3)
    (rs : PTRanges) :
    surfaceHitDeposit b i r τ rs =
      { surfaceRange :=
          if !i.bsdfPureSpecular && !rs.surfaceRange.full then
            rs.surfaceRange.addPhoton
              ⟨i.p, r.dir, τ * abs (i.Ns.dot r.dir / i.Ng.dot r.dir), b⟩
          else rs.surfaceRange,
        volumeRange := rs.volumeRange,
        pathRange :=
          if rs.pathRange.full then rs.pathRange
          else rs.pathRange.addPhoton ⟨i.p, τ, 0, 0, b, false⟩ } := by
  unfold surfaceHitDeposit
  dsimp only
  split_ifs <;> by_cases hpf : rs.pathRange.full = true <;>
    simp_all [PathPhoton.setPathInfo]

theorem mediumScatterDeposit_eq (b : ℤ) (d pn τ : Vec3) (rs : PTRanges) :
    mediumScatterDeposit b d pn τ rs =
      { surfaceRange := rs.surfaceRange,
        volumeRange :=
          if rs.volumeRange.full then rs.volumeRange
          else rs.volumeRange.addPhoton ⟨pn, d, τ, b, 0⟩,
        pathRange :=
          if rs.pathRange.full then rs.pathRange
          else rs.pathRange.addPhoton ⟨pn, τ, 0, 0, b, false⟩ } := by
  unfold mediumScatterDeposit
  dsimp only
  split_ifs <;> by_cases hpf : rs.pathRange.full = true <;>
    simp_all [PathPhoton.setPathInfo]

theorem emissionDeposit_eq (pn τ : Vec3) (rs : PTRanges) :
    emissionDeposit pn τ rs =
      { surfaceRange := rs.surfaceRange,
        volumeRange := rs.volumeRange,
        pathRange :=
          if rs.pathRange.full then rs.pathRange
          else rs.pathRange.addPhoton ⟨pn, τ, 0, 0, 0, false⟩ } := by
  unfold emissionDeposit
  dsimp only
  split_ifs <;> simp_all [PathPhoton.setPathInfo]

theorem NewOnly_ite {α : Type} {P : α → Prop} {old : List α} {c : Prop}
    [Decidable c] {r1 r2 : PhotonRange α}
    (h1 : c → NewOnly P old r1.buf) (h2 : ¬c → NewOnly P old r2.buf) :
    NewOnly P old (if c then r1 else r2).buf := by
  split_ifs with h
  · exact h1 h
  · exact h2 h

theorem tracePhotonTail_inl_bounce {settings : PhotonMapSettings}
    {env : PTEnv} {bounce : ℤ} {ray : Ray} {throughput : Vec3}
    {medium : Option ℕ} {mstate : ℕ}
    {hitSurface wasSpecular didHit : Bool} {info : IInfo} {rs : PTRanges}
    {res : PTState × PTRanges}
    (h : tracePhotonTail settings env bounce ray throughput medium mstate
        hitSurface wasSpecular didHit info rs = Sum.inl res) :
    res.1.bounce = bounce ∧ res.2 = rs := by
  unfold tracePhotonTail at h
  split_ifs at h <;>
    first
      | exact Sum.noConfusion h
      | (dsimp only at h
         cases h
         exact ⟨rfl, rfl⟩)

theorem tracePhotonSurf_inl_bounce {settings : PhotonMapSettings}
    {env : PTEnv} {bounce : ℤ} {ray : Ray} {throughput : Vec3}
    {medium : Option ℕ} {mstate : ℕ}
    {hitSurface wasSpecular didHit : Bool} {info : IInfo} {rs : PTRanges}
    {res : PTState × PTRanges}
    (h : tracePhotonSurf settings env bounce ray throughput medium mstate
        hitSurface wasSpecular didHit info rs = Sum.inl res) :
    res.1.bounce = bounce := by
  unfold tracePhotonSurf at h
  cases hitSurface with
  | false =>
    simp only [Bool.false_eq_true, if_false] at h
    split_ifs at h
    all_goals
      first
        | exact Sum.noConfusion h
        | exact (tracePhotonTail_inl_bounce h).1
  | true =>
    simp only [eq_self_iff_true, if_true] at h
    split_ifs at h
    all_goals
      first
        | exact Sum.noConfusion h
        | (revert h
           cases hh : env.handleSurface bounce info ray throughput medium wasSpecular with
           | none => intro h; exact Sum.noConfusion h
           | some hOut => intro h; exact (tracePhotonTail_inl_bounce h).1)

theorem tracePhotonStep_inl_bounce {settings : PhotonMapSettings}
    {env : PTEnv} {st : PTState} {rs : PTRanges} {res : PTState × PTRanges}
    (h : tracePhotonStep settings env st rs = Sum.inl res) :
    res.1.bounce = st.bounce + 1 := by
  unfold tracePhotonStep at h
  revert h
  cases hm : st.medium with
  | none => intro h; exact tracePhotonSurf_inl_bounce h
  | some m =>
    dsimp only
    cases hd : env.sampleDistance (st.bounce + 1) m st.ray st.mstate with
    | none => intro h; exact Sum.noConfusion h
    | some ms =>
      dsimp only
      split_ifs with hex
      · intro h; exact tracePhotonSurf_inl_bounce h
      · cases hp : env.phaseSample (st.bounce + 1) st.ray.dir with
        | none => intro h; exact Sum.noConfusion h
        | some ph => intro h; exact tracePhotonSurf_inl_bounce h

/-- C5. The emission preamble records an initial path photon with bounce
index 0 (and a cleared specular flag) whenever the path range is not
full; every loop body that continues has incremented the bounce counter
by exactly one; and every surface or volume photon a loop body appends
stores exactly the incremented counter value (so the counter counts
scattering interactions and the first interaction deposits bounce 1). -/
theorem C5_bounceCounterAccounting (settings : PhotonMapSettings)
    (env : PTEnv) (st : PTState) (rs : PTRanges) (pnt throughput : Vec3) :
    (rs.pathRange.full = false →
      (emissionDeposit pnt throughput rs).pathRange.buf =
        rs.pathRange.buf ++ [⟨pnt, throughput, 0, 0, 0, false⟩]) ∧
    (∀ res, tracePhotonStep settings env st rs = Sum.inl res →
      res.1.bounce = st.bounce + 1) ∧
    NewOnly (fun p : Photon => p.bounce = st.bounce + 1) rs.surfaceRange.buf
      (stepRanges (tracePhotonStep settings env st rs)).surfaceRange.buf ∧
    NewOnly (fun p : VolumePhoton => p.bounce = st.bounce + 1)
      rs.volumeRange.buf
      (stepRanges (tracePhotonStep settings env st rs)).volumeRange.buf := by
  refine ⟨?_, ?_, ?_⟩
  · intro hfull
    rw [emissionDeposit_eq]
    dsimp only
    rw [if_neg (by simp [hfull])]
    rfl
  · intro res h
    exact tracePhotonStep_inl_bounce h
  · have key := tracePhotonStep_ranges_pres settings env st rs
      (fun rs1 =>
        NewOnly (fun p : Photon => p.bounce = st.bounce + 1)
          rs.surfaceRange.buf rs1.surfaceRange.buf ∧
        NewOnly (fun p : VolumePhoton => p.bounce = st.bounce + 1)
          rs.volumeRange.buf rs1.volumeRange.buf)
      ?_ ?_ ⟨NewOnly.refl _ _, NewOnly.refl _ _⟩
    · exact key
    · intro i r τ rs1 hpair
      rw [surfaceHitDeposit_eq]
      refine ⟨?_, hpair.2⟩
      exact NewOnly_ite (fun _ => NewOnly.append_one hpair.1 rfl)
        (fun _ => hpair.1)
    · intro d pn τ rs1 hpair
      rw [mediumScatterDeposit_eq]
      refine ⟨hpair.1, ?_⟩
      exact NewOnly_ite (fun _ => hpair.2)
        (fun _ => NewOnly.append_one hpair.2 rfl)

/-- C5 (witness). The emission-record fact applied to concrete non-full
ranges: the initial path photon with bounce 0 and cleared flag is
appended. -/
theorem C5_witness :
    (emissionDeposit ⟨0, 0, 0⟩ ⟨1, 1, 1⟩ rsA).pathRange.buf =
      rsA.pathRange.buf ++ [⟨⟨0, 0, 0⟩, ⟨1, 1, 1⟩, 0, 0, 0, false⟩] :=
  (C5_bounceCounterAccounting sA envA stA rsA ⟨0, 0, 0⟩ ⟨1, 1, 1⟩).1 (by decide)

/-- C10. Every path photon that tracePhoton appends (the initial emission
record and the deposits of the loop) is written through setPathInfo with
a false specular flag: any path photon of the output either was already
present in the input range or has its specular flag cleared. -/
theorem C10_pathPhotonsNeverSpecular (settings : PhotonMapSettings)
    (env : PTEnv) (rs : PTRanges) :
    ∀ p ∈ (tracePhoton settings env rs).pathRange.buf,
      p ∈ rs.pathRange.buf ∨ p.specFlag = false := by
  have key := tracePhoton_ranges_pres settings env rs
    (fun rs1 => NewOnly (fun p : PathPhoton => p.specFlag = false)
      rs.pathRange.buf rs1.pathRange.buf)
    ?_ ?_ ?_ (NewOnly.refl _ _)
  · exact key
  · intro b i r τ rs1 hprev
    rw [surfaceHitDeposit_eq]
    exact NewOnly_ite (fun _ => hprev) (fun _ => NewOnly.append_one hprev rfl)
  · intro b d pn τ rs1 hprev
    rw [mediumScatterDeposit_eq]
    exact NewOnly_ite (fun _ => hprev) (fun _ => NewOnly.append_one hprev rfl)
  · intro pn τ rs1 hprev
    rw [emissionDeposit_eq]
    exact NewOnly_ite (fun _ => hprev) (fun _ => NewOnly.append_one hprev rfl)

/-- C10 (witness). In the concrete one-bounce emission run the initial
path record is in the output and, not being an input photon, has a
cleared specular flag. -/
theorem C10_witness : pEm ∈ rsA.pathRange.buf ∨ pEm.specFlag = false :=
  C10_pathPhotonsNeverSpecular sB envA rsA pEm (by
    simp [tracePhoton, envA, sB, rsA, tracePhotonLoop, emissionDeposit,
      PhotonRange.full, PhotonRange.addPhoton, PathPhoton.setPathInfo, mkRay,
      Ray.setFarT, pEm])

theorem outState_surfaceContinue (env : GEnv) (settings : PhotonMapSettings)
    (bounce : ℤ) (st : GState) (wo throughput2 : Vec3) :
    (outState (surfaceContinue env settings bounce st wo throughput2)).throughput =
      throughput2 ∧
    (outState (surfaceContinue env settings bounce st wo throughput2)).ray.dir = wo ∧
    (outState (surfaceContinue env settings bounce st wo throughput2)).ray.pos =
      st.ray.hitpoint ∧
    (outState (surfaceContinue env settings bounce st wo throughput2)).bounce =
      bounce ∧
    (outState (surfaceContinue env settings bounce st wo throughput2)).medium =
      env.selectMedium bounce st.info st.medium (decide (wo.dot st.info.Ng < 0)) := by
  unfold surfaceContinue
  dsimp only
  split_ifs with h1 h2 h3
  · exact ⟨rfl, rfl, rfl, rfl, rfl⟩
  · exact ⟨rfl, rfl, rfl, rfl, rfl⟩
  · cases hi : env.intersect bounce (st.ray.scatter st.ray.hitpoint wo st.info.epsilon) <;>
      exact ⟨rfl, rfl, rfl, rfl, rfl⟩
  · exact ⟨rfl, rfl, rfl, rfl, rfl⟩

theorem surfaceInteract_pass (env : GEnv) (settings : PhotonMapSettings)
    (bounce : ℤ) (st : GState)
    (hb : env.nextBoolean bounce (env.bsdfForwardEval bounce st.info).avg = true) :
    surfaceInteract env settings bounce st =
      surfaceContinue env settings bounce st st.ray.dir
        (st.throughput * env.bsdfForwardEval bounce st.info /
          (env.bsdfForwardEval bounce st.info).avg) := by
  unfold surfaceInteract
  dsimp only
  rw [if_pos hb]

theorem surfaceInteract_specFail (env : GEnv) (settings : PhotonMapSettings)
    (bounce : ℤ) (st : GState)
    (hb : env.nextBoolean bounce (env.bsdfForwardEval bounce st.info).avg = false)
    (hs : env.bsdfSampleSpec bounce st.info = none) :
    surfaceInteract env settings bounce st = Sum.inr { st with bounce := bounce } := by
  unfold surfaceInteract
  dsimp only
  rw [if_neg (by simp [hb]), hs]

theorem surfaceInteract_specOk (env : GEnv) (settings : PhotonMapSettings)
    (bounce : ℤ) (st : GState) (w wt : Vec3)
    (hb : env.nextBoolean bounce (env.bsdfForwardEval bounce st.info).avg = false)
    (hs : env.bsdfSampleSpec bounce st.info = some (w, wt)) :
    surfaceInteract env settings bounce st =
      surfaceContinue env settings bounce st w (st.throughput * wt) := by
  unfold surfaceInteract
  dsimp only
  rw [if_neg (by simp [hb]), hs]

theorem outState_surfaceInteract_bounce (env : GEnv)
    (settings : PhotonMapSettings) (bounce : ℤ) (st : GState) :
    (outState (surfaceInteract env settings bounce st)).bounce = bounce := by
  unfold surfaceInteract
  dsimp only
  split_ifs with hb
  · exact (outState_surfaceContinue env settings bounce st _ _).2.2.2.1
  · cases hh : env.bsdfSampleSpec bounce st.info with
    | none => rfl
    | some sw => exact (outState_surfaceContinue env settings bounce st _ _).2.2.2.1

theorem outState_traceSampleStep_bounce (env : GEnv)
    (settings : PhotonMapSettings) (vgr : ℚ) (st : GState) :
    (outState (traceSampleStep env settings vgr st)).bounce = st.bounce + 1 := by
  unfold traceSampleStep
  dsimp only
  cases hm : st.medium with
  | none =>
    dsimp only
    split_ifs with hd
    · rfl
    · exact outState_surfaceInteract_bounce env settings (st.bounce + 1) st
  | some m =>
    dsimp only
    split_ifs with hmt hd hbb hd hd
    all_goals
      first
        | rfl
        | exact outState_surfaceInteract_bounce env settings (st.bounce + 1) _

theorem traceSampleLoop_bounce (env : GEnv) (settings : PhotonMapSettings)
    (vgr : ℚ) : ∀ (fuel : ℕ) (st : GState),
    st.bounce ≤ (traceSampleLoop env settings vgr fuel st).bounce ∧
    ((traceSampleLoop env settings vgr fuel st).bounce = st.bounce ∨
      (traceSampleLoop env settings vgr fuel st).bounce ≤ settings.maxBounces) := by
  intro fuel
  induction fuel with
  | zero => intro st; exact ⟨le_refl _, Or.inl rfl⟩
  | succ n ih =>
    intro st
    unfold traceSampleLoop
    split_ifs with hc
    · simp only [Bool.and_eq_true, decide_eq_true_eq] at hc
      have hlt : st.bounce < settings.maxBounces := hc.2
      have hstepb := outState_traceSampleStep_bounce env settings vgr st
      cases hstep : traceSampleStep env settings vgr st with
      | inl st1 =>
        dsimp only
        rw [hstep] at hstepb
        have hb : st1.bounce = st.bounce + 1 := hstepb
        obtain ⟨hmono, hor⟩ := ih st1
        constructor
        · omega
        · rcases hor with heq | hle
          · right; omega
          · right; exact hle
      | inr st1 =>
        dsimp only
        rw [hstep] at hstepb
        have hb : st1.bounce = st.bounce + 1 := hstepb
        exact ⟨by omega, Or.inr (by omega)⟩
    · exact ⟨le_refl _, Or.inl rfl⟩

theorem tracePhotonLoop_bounce (settings : PhotonMapSettings) (env : PTEnv) :
    ∀ (fuel : ℕ) (st : PTState) (rs : PTRanges),
    st.bounce ≤ (tracePhotonLoop settings env fuel st rs).1.bounce ∧
    ((tracePhotonLoop settings env fuel st rs).1.bounce = st.bounce ∨
      (tracePhotonLoop settings env fuel st rs).1.bounce ≤
        settings.maxBounces - 1) := by
  intro fuel
  induction fuel with
  | zero => intro st rs; exact ⟨le_refl _, Or.inl rfl⟩
  | succ n ih =>
    intro st rs
    unfold tracePhotonLoop
    split_ifs with hc
    · simp only [Bool.and_eq_true, decide_eq_true_eq] at hc
      have hlt : st.bounce < settings.maxBounces - 1 := hc.2
      cases hstep : tracePhotonStep settings env st rs with
      | inl next =>
        dsimp only
        have hb : next.1.bounce = st.bounce + 1 := tracePhotonStep_inl_bounce hstep
        obtain ⟨hmono, hor⟩ := ih next.1 next.2
        constructor
        · omega
        · rcases hor with heq | hle
          · right; omega
          · right; exact hle
      | inr rs1 =>
        dsimp only
        refine ⟨?_, Or.inr ?_⟩
        · show st.bounce ≤ st.bounce + 1
          omega
        · show st.bounce + 1 ≤ settings.maxBounces - 1
          omega
    · exact ⟨le_refl _, Or.inl rfl⟩

/-- C6. Both path loops terminate within the claimed iteration budgets:
the bounce counter increments exactly once per executed loop body (shown
directly for the gather body; for the emission body it is the inl case
of the step together with the break convention of the loop), never
decreases across a whole loop run, and on any run that executed at least
one body it ends at most maxBounces - 1 (emission loop) respectively
maxBounces (gather loop); hence the emission loop executes at most
maxBounces - 1 bodies and the gather loop at most maxBounces. -/
theorem C6_loopTermination (settings : PhotonMapSettings) (envP : PTEnv)
    (envG : GEnv) (vgr : ℚ) (fuelP fuelG : ℕ) (st : PTState) (rs : PTRanges)
    (gst : GState) :
    st.bounce ≤ (tracePhotonLoop settings envP fuelP st rs).1.bounce ∧
    ((tracePhotonLoop settings envP fuelP st rs).1.bounce = st.bounce ∨
      (tracePhotonLoop settings envP fuelP st rs).1.bounce ≤
        settings.maxBounces - 1) ∧
    (outState (traceSampleStep envG settings vgr gst)).bounce =
      gst.bounce + 1 ∧
    gst.bounce ≤ (traceSampleLoop envG settings vgr fuelG gst).bounce ∧
    ((traceSampleLoop envG settings vgr fuelG gst).bounce = gst.bounce ∨
      (traceSampleLoop envG settings vgr fuelG gst).bounce ≤
        settings.maxBounces) := by
  obtain ⟨h1, h2⟩ := tracePhotonLoop_bounce settings envP fuelP st rs
  obtain ⟨h3, h4⟩ := traceSampleLoop_bounce envG settings vgr fuelG gst
  exact ⟨h1, h2, outState_traceSampleStep_bounce envG settings vgr gst, h3, h4⟩

theorem foldl_max_of_le : ∀ (rest : List (Photon × ℚ)) (a : ℚ),
    (∀ x ∈ rest, x.2 ≤ a) → rest.foldl (fun mx y => max mx y.2) a = a := by
  intro rest
  induction rest with
  | nil => intro a h; rfl
  | cons b l ih =>
    intro a h
    simp only [List.foldl_cons]
    rw [max_eq_left (h b (List.mem_cons_self b l))]
    exact ih a (fun x hx => h x (List.mem_cons_of_mem b hx))

theorem farthestDistSq_of_head_max (p : Photon × ℚ) (rest : List (Photon × ℚ))
    (hmax : ∀ x ∈ p :: rest, x.2 ≤ p.2) :
    farthestDistSq (p :: rest) = p.2 := by
  unfold farthestDistSq
  exact foldl_max_of_le rest p.2 (fun x hx => hmax x (List.mem_cons_of_mem p hx))

/-- C2. Under the k-NN index contract (modelled from the spec: the
query's first stored distance is the squared distance to the farthest
returned neighbour), the post-loop surface gather of traceSample at a
hit normalizes the accumulated estimate by invPi divided by the squared
distance to the farthest returned neighbour exactly when the query
returned a full gatherCount, by the squared configured gather radius
otherwise, and adds the normalized estimate weighted by throughput to
the result. -/
theorem C2_radiusNormalizationPolicy (env : GEnv)
    (settings : PhotonMapSettings) (gr : ℚ) (st : GState)
    (p : Photon × ℚ) (rest : List (Photon × ℚ))
    (hdid : st.didHit = true)
    (hq : env.knn st.ray.hitpoint settings.gatherCount gr = p :: rest)
    (hmax : knnHeadIsFarthest (p :: rest)) :
    gatherFinish env settings gr st =
      gatherEmissivePart env settings st +
        st.throughput *
          surfaceGatherEstimate env settings st.bounce st.info (p :: rest) *
          (env.invPi /
            (if (p :: rest).length = settings.gatherCount
             then farthestDistSq (p :: rest)
             else gr * gr)) := by
  rw [farthestDistSq_of_head_max p rest (fun x hx => hmax x hx)]
  unfold gatherFinish
  rw [hdid, hq]
  rfl

/-- C2 (witness). The policy applied to a concrete one-element query that
returns exactly the configured gather count. -/
theorem C2_witness :
    gatherFinish gEnvW sW 1 stW =
      gatherEmissivePart gEnvW sW stW +
        stW.throughput *
          surfaceGatherEstimate gEnvW sW stW.bounce stW.info [(phW, 1/4)] *
          (gEnvW.invPi /
            (if ([(phW, 1/4)] : List (Photon × ℚ)).length = sW.gatherCount
             then farthestDistSq [(phW, 1/4)]
             else 1 * 1)) :=
  C2_radiusNormalizationPolicy gEnvW sW 1 stW (phW, 1/4) [] rfl rfl
    (by simp [knnHeadIsFarthest])

/-- C7. At a surface interaction of the gather loop the source evaluates
the forward transparency of the hit and consults the sample stream with
its component average as the probability argument: on true the path
continues straight (the outgoing direction is the incoming ray
direction, restarting from the hit point) with throughput multiplied by
transparency and divided by that scalar; on false a specular-lobe BSDF
sample is forced, whose failure terminates the path at once and whose
success multiplies throughput by the returned weight and continues with
the sampled direction. -/
theorem C7_transparencyRoulette (env : GEnv) (settings : PhotonMapSettings)
    (bounce : ℤ) (st : GState) :
    (env.nextBoolean bounce (env.bsdfForwardEval bounce st.info).avg = true →
      (outState (surfaceInteract env settings bounce st)).throughput =
        st.throughput * env.bsdfForwardEval bounce st.info /
          (env.bsdfForwardEval bounce st.info).avg ∧
      (outState (surfaceInteract env settings bounce st)).ray.dir =
        st.ray.dir ∧
      (outState (surfaceInteract env settings bounce st)).ray.pos =
        st.ray.hitpoint) ∧
    (env.nextBoolean bounce (env.bsdfForwardEval bounce st.info).avg = false →
      env.bsdfSampleSpec bounce st.info = none →
      surfaceInteract env settings bounce st =
        Sum.inr { st with bounce := bounce }) ∧
    (∀ w wt,
      env.nextBoolean bounce (env.bsdfForwardEval bounce st.info).avg = false →
      env.bsdfSampleSpec bounce st.info = some (w, wt) →
      (outState (surfaceInteract env settings bounce st)).throughput =
        st.throughput * wt ∧
      (outState (surfaceInteract env settings bounce st)).ray.dir = w) := by
  refine ⟨?_, ?_, ?_⟩
  · intro hb
    rw [surfaceInteract_pass env settings bounce st hb]
    obtain ⟨h1, h2, h3, _, _⟩ := outState_surfaceContinue env settings bounce st
      st.ray.dir
      (st.throughput * env.bsdfForwardEval bounce st.info /
        (env.bsdfForwardEval bounce st.info).avg)
    exact ⟨h1, h2, h3⟩
  · intro hb hs
    exact surfaceInteract_specFail env settings bounce st hb hs
  · intro w wt hb hs
    rw [surfaceInteract_specOk env settings bounce st w wt hb hs]
    obtain ⟨h1, h2, _, _, _⟩ := outState_surfaceContinue env settings bounce st
      w (st.throughput * wt)
    exact ⟨h1, h2⟩

/-- C7 (witness). The pass-through branch taken at a concrete hit whose
transparency scalar is one half and whose sample stream accepts exactly
the strictly positive probabilities. -/
theorem C7_witness :
    (outState (surfaceInteract gEnvW sW 1 stW)).throughput =
      stW.throughput * gEnvW.bsdfForwardEval 1 stW.info /
        (gEnvW.bsdfForwardEval 1 stW.info).avg ∧
    (outState (surfaceInteract gEnvW sW 1 stW)).ray.dir = stW.ray.dir ∧
    (outState (surfaceInteract gEnvW sW 1 stW)).ray.pos = stW.ray.hitpoint :=
  (C7_transparencyRoulette gEnvW sW 1 stW).1
    (by norm_num [gEnvW, stW, infoA, Vec3.avg])

/-- C9. The pass-through branch divides throughput by the transparency
scalar with no zero guard: the update law holds for every scalar value,
zero included; and the division site is guarded only by the sample
stream's contract, for under the precondition that nextBoolean returns
true only on strictly positive probabilities, the scalar is strictly
positive whenever the branch is taken. -/
theorem C9_unguardedTransparencyDivision (env : GEnv)
    (settings : PhotonMapSettings) (bounce : ℤ) (st : GState) :
    (env.nextBoolean bounce (env.bsdfForwardEval bounce st.info).avg = true →
      (outState (surfaceInteract env settings bounce st)).throughput =
        st.throughput * env.bsdfForwardEval bounce st.info /
          (env.bsdfForwardEval bounce st.info).avg) ∧
    ((∀ q : ℚ, env.nextBoolean bounce q = true → 0 < q) →
      env.nextBoolean bounce (env.bsdfForwardEval bounce st.info).avg = true →
      0 < (env.bsdfForwardEval bounce st.info).avg) := by
  constructor
  · intro hb
    rw [surfaceInteract_pass env settings bounce st hb]
    exact (outState_surfaceContinue env settings bounce st st.ray.dir
      (st.throughput * env.bsdfForwardEval bounce st.info /
        (env.bsdfForwardEval bounce st.info).avg)).1
  · intro hcontract hb
    exact hcontract _ hb

/-- C9 (witness). With the sample stream that accepts exactly strictly
positive probabilities, the branch is taken at a concrete state and the
divisor is strictly positive. -/
theorem C9_witness :
    (outState (surfaceInteract gEnvW sW 1 stW)).throughput =
      stW.throughput * gEnvW.bsdfForwardEval 1 stW.info /
        (gEnvW.bsdfForwardEval 1 stW.info).avg ∧
    0 < (gEnvW.bsdfForwardEval 1 stW.info).avg := by
  have h := C9_unguardedTransparencyDivision gEnvW sW 1 stW
  refine ⟨h.1 ?hb, h.2 (fun q hq => of_decide_eq_true hq) ?hb⟩
  case hb => norm_num [gEnvW, stW, infoA, Vec3.avg]

end Tungsten
